import Mathlib

/-!
Verification development for the qri-io/deepdiff repository (Go).

This file shallow-embeds the program's data model and operations:
  * the generic value algebra handled by `tree` in tree.go
    (Null, Bool, Int, Float, String, Array, Object),
  * addresses (delta.go: RootAddr / StringAddr / IndexAddr),
  * the FNV-64 subtree hashing and node weights of the tree builder,
  * the node arena, matcher (queueMatch / matchNodes / bestCandidate),
    optimizer (propagateMatchToParent / propagateMatchToChildren),
    delta extraction (calcDeltas / childDeltas / toDelta / compareScalar),
  * the delta model with its custom JSON wire encoding (delta.go), and
  * the patcher (patch.go, the Addr-based implementation).

Go `float64` values are embedded by the canonical decimal string that
`strconv.FormatFloat(x, 'f', -1, 64)` produces for them; the program only
ever consumes floats through that textual form (hashing and weights) or
through opaque equality, so this carries exactly the observable data.
Machine integers are embedded as `Int` / `Nat` (no overflow is reachable in
the modelled arithmetic); byte strings are `List Nat` with entries < 256.
Go panics and the runtime errors of the reflect package are embedded as an
`Except` error channel.
-/

namespace Deepdiff

/-- UTF-8 encoding of one code point (standard 1–4 byte forms). -/
def utf8Enc (c : Nat) : List Nat :=
  if c < 0x80 then [c]
  else if c < 0x800 then
    [0xC0 ||| (c >>> 6), 0x80 ||| (c &&& 0x3F)]
  else if c < 0x10000 then
    [0xE0 ||| (c >>> 12), 0x80 ||| ((c >>> 6) &&& 0x3F), 0x80 ||| (c &&& 0x3F)]
  else
    [0xF0 ||| (c >>> 18), 0x80 ||| ((c >>> 12) &&& 0x3F),
     0x80 ||| ((c >>> 6) &&& 0x3F), 0x80 ||| (c &&& 0x3F)]

/-- Bytes of a string, as Go `[]byte(s)` (UTF-8). -/
def strBytes (s : String) : List Nat :=
  (s.data.map fun c => utf8Enc c.toNat).flatten

/-- FNV-64 offset basis (Go hash/fnv, `fnv.New64()`). -/
def fnv64Basis : Nat := 14695981039346656037

/-- FNV-64 prime (Go hash/fnv). -/
def fnv64Prime : Nat := 1099511628211

/-- One step of FNV-1 64-bit: multiply by the prime mod 2^64, then xor the
byte (Go hash/fnv `sum64.Write`). -/
def fnvStep (state b : Nat) : Nat :=
  ((state * fnv64Prime) % (2 ^ 64)) ^^^ b

/-- Absorb a byte list into an FNV-1 64-bit state (Go `Write`). -/
def fnvWrite (state : Nat) (bs : List Nat) : Nat :=
  bs.foldl fnvStep state

/-- The 8 bytes of a 64-bit word, big-endian (Go `sum64.Sum` appends them). -/
def beBytes8 (n : Nat) : List Nat :=
  [n / 2 ^ 56 % 256, n / 2 ^ 48 % 256, n / 2 ^ 40 % 256, n / 2 ^ 32 % 256,
   n / 2 ^ 24 % 256, n / 2 ^ 16 % 256, n / 2 ^ 8 % 256, n % 256]

/-- Go `h.Sum(in)` appends the state's big-endian bytes to `in`. -/
def hashSum (inBytes : List Nat) (state : Nat) : List Nat :=
  inBytes ++ beBytes8 state

/-- The seven-variant value algebra diffed by the program: the dynamic
values Go's tree builder switches over in tree.go `tree` (nil, bool, int64,
float64, string, []interface, map[string]interface).  `float` carries the
canonical decimal form produced by `strconv.FormatFloat(x, 'f', -1, 64)`;
`obj` carries key/value pairs (a Go map: keys unique, order irrelevant —
the builder sorts them). -/
inductive Value where
  | null : Value
  | bool (b : Bool) : Value
  | int (n : Int) : Value
  | float (form : String) : Value
  | str (s : String) : Value
  | arr (xs : List Value) : Value
  | obj (kvs : List (String × Value)) : Value
deriving Repr

/-- Node kinds, tree.go `nodeType`. -/
inductive NodeType where
  | ntUnknown | ntObject | ntArray | ntString | ntFloat | ntInt | ntBool | ntNull
deriving DecidableEq, Repr

/-- Path elements, delta.go: `RootAddr`, `StringAddr`, `IndexAddr`.
`IndexAddr` is a Go `int` and may go negative during renumbering. -/
inductive Addr where
  | rootA : Addr
  | stringA (s : String) : Addr
  | indexA (i : Int) : Addr
deriving DecidableEq, Repr

namespace Addr

/-- delta.go `Eq`: each variant compares only with itself. -/
def eqA : Addr → Addr → Bool
  | .rootA, .rootA => true
  | .stringA a, .stringA b => a == b
  | .indexA a, .indexA b => a == b
  | _, _ => false

/-- delta.go `String()`: "/" for root, the raw string, the decimal index. -/
def strForm : Addr → String
  | .rootA => "/"
  | .stringA s => s
  | .indexA i => toString i

/-- The `addr.Value().(int)` type assertion used by patch.go and
calcDeltas: succeeds only on an IndexAddr. -/
def valueInt : Addr → Option Int
  | .indexA i => some i
  | _ => none

/-- The test `addr.Value() == nil`, true exactly for RootAddr (delta.go `Value`). -/
def valueIsNil : Addr → Bool
  | .rootA => true
  | _ => false

end Addr

/-- Lexicographic comparison of code-point sequences. -/
def charListLt : List Char → List Char → Bool
  | _, [] => false
  | [], _ :: _ => true
  | a :: as, b :: bs =>
      if a.toNat < b.toNat then true
      else if b.toNat < a.toNat then false
      else charListLt as bs

/-- Go string comparison (`<` on strings is bytewise; UTF-8 byte order and
code-point order agree). -/
def goStrLt (a b : String) : Bool := charListLt a.data b.data

/-- delta.go `sortableAddrs.Less`: numeric if both are ints, else by the
printed form. -/
def sortableAddrsLess (a b : Addr) : Bool :=
  match a.valueInt, b.valueInt with
  | some i, some j => i < j
  | _, _ => goStrLt a.strForm b.strForm

/-- Delta operations, delta.go (`Operation`): Context " ", Delete "-",
Insert "+", Update "~".  The zero Operation "" of a fresh node is embedded
as `Option Operation = none` where it occurs. -/
inductive Operation where
  | DTContext | DTDelete | DTInsert | DTUpdate
deriving DecidableEq, Repr

/-- delta.go `opOrder`: Delete < Context < Insert < Update. -/
def opOrder : Operation → Nat
  | .DTDelete => 0
  | .DTContext => 1
  | .DTInsert => 2
  | .DTUpdate => 3

/-- The kind-specific textual form hashed for each leaf by tree.go `tree`:
"null", the decimal integer, the canonical float string, the raw string,
"true"/"false".  `none` for compounds. -/
def scalarText : Value → Option String
  | .null => some "null"
  | .int n => some (toString n)
  | .float form => some form
  | .str s => some s
  | .bool b => some (if b then "true" else "false")
  | _ => none

/-- tree.go `tree`, kind assignment per case. -/
def valueKind : Value → NodeType
  | .null => .ntNull
  | .int _ => .ntInt
  | .float _ => .ntFloat
  | .str _ => .ntString
  | .bool _ => .ntBool
  | .arr _ => .ntArray
  | .obj _ => .ntObject

mutual

/-- tree.go `tree`, weight assignment per case: Null gets weight 1; other
leaves get `len(text)`; a compound gets 1 plus the sum of its children's
weights.  (Objects sum over the map, so order is irrelevant.) -/
def valueWeight : Value → Nat
  | .null => 1
  | .int n => (toString n).utf8ByteSize
  | .float form => form.utf8ByteSize
  | .str s => s.utf8ByteSize
  | .bool b => (if b then "true" else "false").utf8ByteSize
  | .arr xs => 1 + valueWeightList xs
  | .obj kvs => 1 + valueWeightKVs kvs

/-- Sum of element weights of an array's children. -/
def valueWeightList : List Value → Nat
  | [] => 0
  | v :: vs => valueWeight v + valueWeightList vs

/-- Sum of entry weights of an object's children. -/
def valueWeightKVs : List (String × Value) → Nat
  | [] => 0
  | kv :: rest => valueWeight kv.2 + valueWeightKVs rest

end

/-- Insertion sort by a boolean `le`; stands in for Go's sort.Sort (whose
output order is uniquely determined whenever no two elements tie). -/
def insertSorted {α : Type} (le : α → α → Bool) (x : α) : List α → List α
  | [] => [x]
  | y :: ys => if le x y then x :: y :: ys else y :: insertSorted le x ys

/-- Sort a list by a boolean `le`. -/
def sortByBool {α : Type} (le : α → α → Bool) : List α → List α
  | [] => []
  | x :: xs => insertSorted le x (sortByBool le xs)

/-- Object build order: keys ascending, tree.go `tree` (`sort.Sort(addrs)`
on StringAddrs is plain string order). -/
def sortKVs {α : Type} (kvs : List (String × α)) : List (String × α) :=
  sortByBool (fun a b => !goStrLt b.1 a.1) kvs

mutual

/-- tree.go `tree`, hash per case.  A leaf hashes as
`NewHash().Sum([]byte(text))` — Go's `Sum` appends the (untouched) FNV
state to its argument, so the bytes are `text ++ basis`.  A compound feeds
its children's hashes (arrays in index order, objects in ascending key
order) into a fresh hasher via `Write` and takes `Sum(nil)`. -/
def valueHashBytes : Value → List Nat
  | .null => hashSum (strBytes "null") fnv64Basis
  | .int n => hashSum (strBytes (toString n)) fnv64Basis
  | .float form => hashSum (strBytes form) fnv64Basis
  | .str s => hashSum (strBytes s) fnv64Basis
  | .bool b => hashSum (strBytes (if b then "true" else "false")) fnv64Basis
  | .arr xs => hashSum [] (fnvWrite fnv64Basis (hashConcat xs))
  | .obj kvs =>
      hashSum []
        (fnvWrite fnv64Basis
          (((sortKVs (kvsHashes kvs)).map fun kv => kv.2).flatten))

/-- Concatenated child hashes of an array, in index order. -/
def hashConcat : List Value → List Nat
  | [] => []
  | v :: vs => valueHashBytes v ++ hashConcat vs

/-- Per-key subtree hashes of an object's entries (the object case sorts
them by key before concatenation; sorting the key/hash pairs commutes with
sorting the keys first since a child's hash ignores its position). -/
def kvsHashes : List (String × Value) → List (String × List Nat)
  | [] => []
  | kv :: rest => (kv.1, valueHashBytes kv.2) :: kvsHashes rest

end

mutual

/-- Go `reflect.DeepEqual` restricted to the value algebra: structural
equality, with maps compared key-by-key (order-insensitive). -/
def deepEqual : Value → Value → Bool
  | .null, .null => true
  | .bool a, .bool b => a == b
  | .int a, .int b => a == b
  | .float a, .float b => a == b
  | .str a, .str b => a == b
  | .arr xs, .arr ys => deepEqualList xs ys
  | .obj a, .obj b => a.length == b.length && deepEqualKVs a b
  | _, _ => false

/-- Elementwise `DeepEqual` on slices. -/
def deepEqualList : List Value → List Value → Bool
  | [], [] => true
  | x :: xs, y :: ys => deepEqual x y && deepEqualList xs ys
  | _, _ => false

/-- Key-by-key `DeepEqual` on maps: every entry of the first occurs, equal,
in the second. -/
def deepEqualKVs : List (String × Value) → List (String × Value) → Bool
  | [], _ => true
  | kv :: rest, b =>
      (match b.find? fun kw => kw.1 == kv.1 with
       | some kw => deepEqual kv.2 kw.2
       | none => false)
      && deepEqualKVs rest b

end

/-- Go panics and runtime errors reachable in the diff pipeline. -/
inductive PanicKind where
  /-- diff deepdiff.go: `os.OpenFile` of the debug file failed, `panic(err)`. -/
  | debugOpenFailed
  /-- diff deepdiff.go: `json.MarshalIndent` of an input failed, `panic(err)`. -/
  | debugMarshalFailed
  /-- calcDeltas: "expected int type for array address" /
  "array address index is not of integer type". -/
  | arrayAddrNotInt
  /-- calcDeltas: `p[len(p)-1]` with `len(p) == 0` — index out of range. -/
  | emptyRootPath
  /-- calcDeltas: the `t2.(compound)` type assertion on a non-compound root. -/
  | rootNotCompound
  /-- A slice index out of range (e.g. `array.Child` with a negative
  `childNames` entry). -/
  | indexOutOfRange
  /-- A nil-pointer dereference. -/
  | nilNode
  /-- Model artifact: traversal fuel ran out.  Never reached when the fuel
  is at least the arena size plus one, since every traversal descends the
  (acyclic) child graph. -/
  | outOfFuel
deriving DecidableEq, Repr

/-- One node of the parallel trees (tree.go `object` / `array` / `scalar`,
flattened into a single record and held in an arena indexed by node id,
so that the Go pointer graph — parent and match back-edges included — has
a faithful aliasing-correct image).  `matchId` is the `match` field;
`change` is the `change` field with `none` for the zero Operation "".
Object children live in `objChildren` (the Go `children map[Addr]node`,
keyed by insert-time address; kept in insertion order since Go's map order
is unobservable up to the final delta sort).  Array children live in
`children` (index order) with the auxiliary `childNames map[Addr]int`. -/
structure Node where
  typ : NodeType
  addr : Addr
  parent : Option Nat
  value : Value
  hash : List Nat
  weight : Nat
  matchId : Option Nat
  change : Option Operation
  children : List Nat
  childNames : List (Addr × Int)
  objChildren : List (Addr × Nat)
  descendants : Nat
deriving Repr

/-- The node arena: both trees' nodes, indexed by id. -/
abbrev Arena := List Node

/-- Blank scalar node used as an out-of-range default; lookups of valid
ids never see it. -/
def blankNode : Node :=
  ⟨.ntUnknown, .rootA, none, .null, [], 0, none, none, [], [], [], 0⟩

/-- Read a node (valid ids only are ever used). -/
def getN (ar : Arena) (i : Nat) : Node := (ar.get? i).getD blankNode

/-- Update a node in place. -/
def modN (ar : Arena) (i : Nat) (f : Node → Node) : Arena :=
  ar.set i (f (getN ar i))

def typOf (ar : Arena) (i : Nat) : NodeType := (getN ar i).typ
def addrOf (ar : Arena) (i : Nat) : Addr := (getN ar i).addr
def parentOf (ar : Arena) (i : Nat) : Option Nat := (getN ar i).parent
def weightOf (ar : Arena) (i : Nat) : Nat := (getN ar i).weight
def hashOf (ar : Arena) (i : Nat) : List Nat := (getN ar i).hash
def matchOf (ar : Arena) (i : Nat) : Option Nat := (getN ar i).matchId
def changeOf (ar : Arena) (i : Nat) : Option Operation := (getN ar i).change
def valueOf (ar : Arena) (i : Nat) : Value := (getN ar i).value

/-- Whether the node is a compound (`n.(compound)` succeeds: object or
array). -/
def isCompound (ar : Arena) (i : Nat) : Bool :=
  typOf ar i = .ntObject || typOf ar i = .ntArray

/-- Accessor `Children()`: object map values (insertion order), array slice,
nothing for scalars. -/
def childrenOf (ar : Arena) (i : Nat) : List Nat :=
  match typOf ar i with
  | .ntObject => (getN ar i).objChildren.map fun kv => kv.2
  | .ntArray => (getN ar i).children
  | _ => []

/-- Setter `SetMatch`. -/
def setMatch (ar : Arena) (i j : Nat) : Arena :=
  modN ar i fun n => { n with matchId := some j }

/-- Setter `SetAddr`. -/
def setAddr (ar : Arena) (i : Nat) (a : Addr) : Arena :=
  modN ar i fun n => { n with addr := a }

/-- Setter `SetChangeType`. -/
def setChange (ar : Arena) (i : Nat) (op : Operation) : Arena :=
  modN ar i fun n => { n with change := some op }

/-- Insert-or-replace in an `Addr`-keyed association list (a Go map
write). -/
def addrMapSet {α : Type} (m : List (Addr × α)) (k : Addr) (v : α) : List (Addr × α) :=
  match m with
  | [] => [(k, v)]
  | (k', v') :: rest =>
      if Addr.eqA k' k then (k', v) :: rest else (k', v') :: addrMapSet rest k v

/-- Lookup in an `Addr`-keyed association list. -/
def addrMapGet {α : Type} (m : List (Addr × α)) (k : Addr) : Option α :=
  (m.find? fun kv => Addr.eqA kv.1 k).map fun kv => kv.2

/-- tree.go `array.Child`: `childNames[addr]` defaults to 0 for a missing
key (Go zero value); the guard is only `childNames[addr] < len(children)`,
so a negative stored index would make `children[i]` panic. -/
def arrayChild (ar : Arena) (i : Nat) (a : Addr) : Except PanicKind (Option Nat) :=
  let n := getN ar i
  let idx : Int := (addrMapGet n.childNames a).getD 0
  if idx < (n.children.length : Int) then
    if idx < 0 then .error .indexOutOfRange
    else pure (n.children.get? idx.toNat)
  else pure none

/-- Accessor `Child(addr)` on any compound (object map lookup / array lookup). -/
def childOf (ar : Arena) (i : Nat) (a : Addr) : Except PanicKind (Option Nat) :=
  match typOf ar i with
  | .ntObject => pure (addrMapGet (getN ar i).objChildren a)
  | .ntArray => arrayChild ar i a
  | _ => pure none

/-- Method `DropChildNodes`: release all references to child nodes (the value
still carries the data).  Go nils only the object `children` map / the
array `children` slice; the array's `childNames` survives. -/
def dropChildNodes (ar : Arena) (i : Nat) : Arena :=
  modN ar i fun n =>
    match n.typ with
    | .ntObject => { n with objChildren := [] }
    | .ntArray => { n with children := [] }
    | _ => n

/-- Method `AddChild`: bump `descendants` (plus the child's own descendants when
it is compound), then append to the array slice / write the object map at
the child's current address.  An array `AddChild` does not touch
`childNames`. -/
def addChild (ar : Arena) (par child : Nat) : Arena :=
  let extra := 1 + (if isCompound ar child then (getN ar child).descendants else 0)
  let ca := addrOf ar child
  modN ar par fun n =>
    match n.typ with
    | .ntObject =>
        { n with descendants := n.descendants + extra,
                 objChildren := addrMapSet n.objChildren ca child }
    | .ntArray =>
        { n with descendants := n.descendants + extra,
                 children := n.children ++ [child] }
    | _ => n

mutual

/-- tree.go `tree`: build the node tree for a value.  Returns the new
arena, the node's id, and the ids in channel emission order (`nodes <- n`
runs after a node's children are fully built, so emission is post-order;
an object's children are built in ascending key order).  Hash and weight
are the per-case assignments transcribed in `valueHashBytes` and
`valueWeight`. -/
def buildTree (v : Value) (addr : Addr) (parent : Option Nat) (ar : Arena) :
    Arena × Nat × List Nat :=
  match v with
  | .arr xs =>
      let id := ar.length
      let ar := ar ++ [blankNode]
      let (ar, built, emitted) := buildList xs 0 id ar
      let kidIds := built.map fun kv => kv.2
      let descendants :=
        (built.map fun kv =>
          1 + (if isCompound ar kv.2 then (getN ar kv.2).descendants else 0)).sum
      let node : Node :=
        { typ := .ntArray, addr := addr, parent := parent, value := v,
          hash := valueHashBytes v, weight := valueWeight v,
          matchId := none, change := none,
          children := kidIds,
          childNames := built.map fun kv => (Addr.indexA kv.1, (kv.1 : Int)),
          objChildren := [], descendants := descendants }
      (ar.set id node, id, emitted ++ [id])
  | .obj kvs =>
      let id := ar.length
      let ar := ar ++ [blankNode]
      let (ar, built) := buildKVs kvs id ar
      -- the builder iterates the keys in sorted order (tree.go sorts the
      -- addrs before building); building in entry order and sorting the
      -- resulting (key, id, emissions) triples yields the same tree up to
      -- the internal numbering of ids
      let sorted := sortByBool (fun a b => !goStrLt b.1 a.1) built
      let descendants :=
        (sorted.map fun kv =>
          1 + (if isCompound ar kv.2.1 then (getN ar kv.2.1).descendants else 0)).sum
      let node : Node :=
        { typ := .ntObject, addr := addr, parent := parent, value := v,
          hash := valueHashBytes v, weight := valueWeight v,
          matchId := none, change := none,
          children := [], childNames := [],
          objChildren := sorted.map fun kv => (Addr.stringA kv.1, kv.2.1),
          descendants := descendants }
      (ar.set id node, id, (sorted.map fun kv => kv.2.2).flatten ++ [id])
  | _ =>
      let id := ar.length
      let node : Node :=
        { typ := valueKind v, addr := addr, parent := parent, value := v,
          hash := valueHashBytes v, weight := valueWeight v,
          matchId := none, change := none,
          children := [], childNames := [], objChildren := [], descendants := 0 }
      (ar ++ [node], id, [id])

/-- Array children, built in index order with `IndexAddr i` addresses.
Returns (arena, list of (index, id), emissions). -/
def buildList (xs : List Value) (i : Nat) (parent : Nat) (ar : Arena) :
    Arena × List (Nat × Nat) × List Nat :=
  match xs with
  | [] => (ar, [], [])
  | v :: rest =>
      let (ar, id, em) := buildTree v (Addr.indexA (i : Int)) (some parent) ar
      let (ar, built, ems) := buildList rest (i + 1) parent ar
      (ar, (i, id) :: built, em ++ ems)

/-- Object children, built per entry with `StringAddr key` addresses.
Returns (arena, list of (key, (id, emissions))). -/
def buildKVs (kvs : List (String × Value)) (parent : Nat) (ar : Arena) :
    Arena × List (String × (Nat × List Nat)) :=
  match kvs with
  | [] => (ar, [])
  | (k, v) :: rest =>
      let (ar, id, em) := buildTree v (Addr.stringA k) (some parent) ar
      let (ar, built) := buildKVs rest parent ar
      (ar, (k, (id, em)) :: built)

end

/-- The hash registry (deepdiff.go `t1Nodes map[string][]node`): hash key
to the t1 nodes carrying it, in channel arrival order.  Keys are the raw
hash bytes (`hashStr` hex encoding is injective, so the string detour is
dropped). -/
abbrev Registry := List (List Nat × List Nat)

/-- Append a node under its hash key (`t1nodes[key] = append(...)`). -/
def regAdd (reg : Registry) (key : List Nat) (id : Nat) : Registry :=
  match reg with
  | [] => [(key, [id])]
  | (k, ids) :: rest =>
      if k == key then (k, ids ++ [id]) :: rest else (k, ids) :: regAdd rest key id

/-- Lookup (`t1Nodes[key]`, nil slice when absent). -/
def regLookup (reg : Registry) (key : List Nat) : List Nat :=
  ((reg.find? fun kv => kv.1 == key).map fun kv => kv.2).getD []

/-- Everything deepdiff.go `prepTrees` produces: both trees in one arena,
the registry fed from the t1 build channel, and the node/weight tallies
(`t1Count`/`t1Weight`/`t2Count`/`t2Weight` accumulate a count and a sum of
`n.Weight()` over every node that crosses the channel). -/
structure PrepOut where
  ar : Arena
  t1 : Nat
  t2 : Nat
  reg : Registry
  t1Count : Nat
  t1Weight : Nat
  t2Count : Nat
  t2Weight : Nat

/-- tree.go `prepTrees`.  The `ctx` argument is accepted and never
consulted, exactly as in the source (its `ctx context.Context` parameter
is unused). -/
def prepTrees (ctx : Bool) (d1 d2 : Value) : PrepOut :=
  let _ := ctx
  let (ar, t1, em1) := buildTree d1 .rootA none []
  let (ar, t2, em2) := buildTree d2 .rootA none ar
  let reg := em1.foldl (fun reg id => regAdd reg (hashOf ar id) id) []
  { ar := ar, t1 := t1, t2 := t2, reg := reg,
    t1Count := em1.length,
    t1Weight := (em1.map fun id => weightOf ar id).sum,
    t2Count := em2.length,
    t2Weight := (em2.map fun id => weightOf ar id).sum }

/-- deepdiff.go `matchNodes`: connect the two nodes, then climb exactly one
step — if both parents exist and their addresses are `Eq`, match the
parents too (the loop body ends in an unconditional `break`, so no further
ancestors are considered). -/
def matchNodes (ar : Arena) (n1 n2 : Nat) : Arena :=
  let ar := setMatch ar n1 n2
  let ar := setMatch ar n2 n1
  match parentOf ar n1, parentOf ar n2 with
  | some n1p, some n2p =>
      if Addr.eqA (addrOf ar n1p) (addrOf ar n2p) then
        let ar := setMatch ar n1p n2p
        setMatch ar n2p n1p
      else ar
  | _, _ => ar

/-- deepdiff.go `bestCandidate`, inner `for i, can := range nodeList` scan:
the first candidate whose parent's address equals the current t2
ancestor's address wins; every candidate scanned without winning is
replaced by its (possibly nil) parent. -/
def bcScan (ar : Arena) (cur : Nat) :
    List (Option Nat) → Option Nat × List (Option Nat)
  | [] => (none, [])
  | can :: rest =>
      match can with
      | none =>
          let (r, rest') := bcScan ar cur rest
          (r, none :: rest')
      | some c =>
          match parentOf ar c with
          | some cp =>
              if Addr.eqA (addrOf ar cur) (addrOf ar cp) then (some cp, can :: rest)
              else
                let (r, rest') := bcScan ar cur rest
                (r, some cp :: rest')
          | none =>
              let (r, rest') := bcScan ar cur rest
              (r, none :: rest')

/-- deepdiff.go `bestCandidate` main loop.  The float32 comparison
`dist < maxDist` with `dist = 1 + (w(parent) − w(prev))/t2W` and
`maxDist = 1 + w(n2)/t2W` is carried out exactly over the integers
(common positive denominator t2W; float32 rounding on astronomically
large weights is not modelled). -/
def bcGo (fuel : Nat) (ar : Arena) (nodeList : List (Option Nat))
    (prev cur : Nat) (wOrig : Int) : Arena :=
  match fuel with
  | 0 => ar
  | fuel + 1 =>
      if (weightOf ar cur : Int) - (weightOf ar prev : Int) < wOrig then
        match bcScan ar cur nodeList with
        | (some cp, _) => matchNodes ar cp cur
        | (none, nodeList') =>
            match parentOf ar cur with
            | none => ar
            | some nxt => bcGo fuel ar nodeList' cur nxt wOrig
      else ar

/-- deepdiff.go `bestCandidate`: nothing to do for the root; otherwise copy
the candidate list and walk the t2 ancestry while the weight distance
stays under the bound. -/
def bestCandidate (ar : Arena) (t1Candidates : List Nat) (n2 : Nat)
    (t2Weight : Int) : Arena :=
  let _ := t2Weight
  match parentOf ar n2 with
  | none => ar
  | some p =>
      let nodeList := t1Candidates.map some
      bcGo (ar.length + 1) ar nodeList n2 p ((weightOf ar n2 : Int))

/-- deepdiff.go `queueMatch`: drain a FIFO seeded with the t2 root.  No
candidate: enqueue the children (compounds only).  One candidate: exact
match.  Several: `bestCandidate`.  The `considering` counter bookkeeping
terminates the Go loop exactly when the queue is empty. -/
def queueMatch (fuel : Nat) (ar : Arena) (reg : Registry) (queue : List Nat)
    (t2Weight : Int) : Arena :=
  match fuel with
  | 0 => ar
  | fuel + 1 =>
      match queue with
      | [] => ar
      | n2 :: rest =>
          match regLookup reg (hashOf ar n2) with
          | [] =>
              let extra := if isCompound ar n2 then childrenOf ar n2 else []
              queueMatch fuel ar reg (rest ++ extra) t2Weight
          | [n1] => queueMatch fuel (matchNodes ar n1 n2) reg rest t2Weight
          | cands => queueMatch fuel (bestCandidate ar cands n2 t2Weight) reg rest t2Weight

/-- tree.go `walkPostfix` (bottom-up order, ignoring the path, which the
optimizer discards): children are read on entry, visited recursively, then
the function is applied to the node itself. -/
def walkPostOrder (fuel : Nat) (ar : Arena) (id : Nat) (f : Arena → Nat → Arena) : Arena :=
  match fuel with
  | 0 => ar
  | fuel + 1 =>
      let kids := childrenOf ar id
      let ar := kids.foldl (fun ar k => walkPostOrder fuel ar k f) ar
      f ar id

/-- tree.go `walk` (top-down order, ignoring the path): the function is
applied first, then the children — read afterwards — are visited.  The
optimizer's visitors always continue. -/
def walkPreOrder (fuel : Nat) (ar : Arena) (id : Nat) (f : Arena → Nat → Arena) : Arena :=
  match fuel with
  | 0 => ar
  | fuel + 1 =>
      let ar := f ar id
      let kids := childrenOf ar id
      kids.foldl (fun ar k => walkPreOrder fuel ar k f) ar

/-- deepdiff.go `propagateMatchToParent`, child scan: among children whose
match has an unmatched parent, hold a candidate; a later candidate `p`
replaces the held one when `p.Weight() > m.Weight()` — the comparison is
against the current child's match `m`, exactly as written. -/
def pmtpScan (ar : Arena) : List Nat → Option Nat → Option Nat
  | [], acc => acc
  | ch :: rest, acc =>
      let acc :=
        match matchOf ar ch with
        | some m =>
            match parentOf ar m with
            | some p =>
                if (matchOf ar p).isNone then
                  match acc with
                  | none => some p
                  | some _ => if weightOf ar p > weightOf ar m then some p else acc
                else acc
            | none => acc
        | none => acc
      pmtpScan ar rest acc

/-- deepdiff.go `propagateMatchToParent`: for an unmatched compound, match
it with the scanned candidate parent (if any). -/
def propagateMatchToParent (ar : Arena) (n : Nat) : Arena :=
  if isCompound ar n && (matchOf ar n).isNone then
    match pmtpScan ar (childrenOf ar n) none with
    | some m => matchNodes ar m n
    | none => ar
  else ar

/-- deepdiff.go `propagateMatchToChildren`: on a matched compound pair —
both objects: match children that share a key; both arrays of equal
length: match all children pairwise by address (the array branch does not
nil-check `n2.Child`, so a miss would dereference nil). -/
def propagateMatchToChildren (ar : Arena) (n : Nat) : Except PanicKind Arena :=
  match matchOf ar n with
  | none => pure ar
  | some n2 =>
      if isCompound ar n && isCompound ar n2 then
        if typOf ar n = .ntObject && typOf ar n2 = .ntObject then
          (childrenOf ar n).foldlM (fun ar n1ch => do
            match ← childOf ar n2 (addrOf ar n1ch) with
            | some n2ch => pure (setMatch (setMatch ar n2ch n1ch) n1ch n2ch)
            | none => pure ar) ar
        else
          if typOf ar n = .ntArray && typOf ar n2 = .ntArray
              && (childrenOf ar n).length == (childrenOf ar n2).length then
            (childrenOf ar n).foldlM (fun ar n1ch => do
              match ← childOf ar n2 (addrOf ar n1ch) with
              | some n2ch => pure (setMatch (setMatch ar n2ch n1ch) n1ch n2ch)
              | none => .error .nilNode) ar
          else pure ar
      else pure ar

/-- tree.go `walk`, used with a visitor that can panic. -/
def walkPreOrderM (fuel : Nat) (ar : Arena) (id : Nat)
    (f : Arena → Nat → Except PanicKind Arena) : Except PanicKind Arena :=
  match fuel with
  | 0 => .error .outOfFuel
  | fuel + 1 => do
      let ar ← f ar id
      let kids := childrenOf ar id
      kids.foldlM (fun ar k => walkPreOrderM fuel ar k f) ar

/-- deepdiff.go `optimize`: two postfix passes propagating matches to
parents (t1 then t2), then two prefix passes propagating matches to
children (t1 then t2). -/
def optimize (ar : Arena) (t1 t2 : Nat) : Except PanicKind Arena := do
  let fuel := ar.length + 1
  let ar := walkPostOrder fuel ar t1 propagateMatchToParent
  let ar := walkPostOrder fuel ar t2 propagateMatchToParent
  let ar ← walkPreOrderM fuel ar t1 propagateMatchToChildren
  walkPreOrderM fuel ar t2 propagateMatchToChildren

/-- delta.go `Delta`: operation, path element, value payload, optional
source path and value, nested child deltas.  (An inductive because the
record is recursive; `none` stands for a nil `interface{}`.) -/
inductive Delta where
  | mk (typ : Operation) (path : Addr) (value : Option Value)
       (sourcePath : String) (sourceValue : Option Value)
       (deltas : List Delta) : Delta
deriving Repr

def Delta.typ : Delta → Operation | .mk t _ _ _ _ _ => t
def Delta.path : Delta → Addr | .mk _ p _ _ _ _ => p
def Delta.value : Delta → Option Value | .mk _ _ v _ _ _ => v
def Delta.sourcePath : Delta → String | .mk _ _ _ sp _ _ => sp
def Delta.sourceValue : Delta → Option Value | .mk _ _ _ _ sv _ => sv
def Delta.deltas : Delta → List Delta | .mk _ _ _ _ _ ds => ds

/-- deepdiff.go `compareScalar`: an Update delta when the two nodes' types
differ or `reflect.DeepEqual` rejects their values, else nothing. -/
def compareScalar (ar : Arena) (n1 n2 : Nat) (n2Addr : Addr) : Option Delta :=
  if typOf ar n1 ≠ typOf ar n2 then
    some (.mk .DTUpdate n2Addr (some (valueOf ar n2)) "" (some (valueOf ar n1)) [])
  else if !deepEqual (valueOf ar n1) (valueOf ar n2) then
    some (.mk .DTUpdate n2Addr (some (valueOf ar n2)) "" (some (valueOf ar n1)) [])
  else none

/-- deepdiff.go `toDelta`: the node's change type (Context for the zero
Operation) and address; an Update also copies the match's value as the
source value (`n.Match().Value()` — nil match would dereference nil). -/
def toDelta (ar : Arena) (id : Nat) : Except PanicKind Delta :=
  let t := (changeOf ar id).getD .DTContext
  match t with
  | .DTUpdate =>
      match matchOf ar id with
      | some m => pure (.mk t (addrOf ar id) (some (valueOf ar id)) "" (some (valueOf ar m)) [])
      | none => .error .nilNode
  | _ => pure (.mk t (addrOf ar id) (some (valueOf ar id)) "" none [])

/-- tree.go `addNode`, navigation loop.  The loop variable `cmp` is bound
once to the root compound and never rebound, so every step looks up
`cmp.Child(addr)` on the ROOT; a nil child returns without adding. -/
def addNodeLoop (ar : Arena) (root cur : Nat) :
    List Addr → Except PanicKind (Option Nat)
  | [] => pure (some cur)
  | a :: rest => do
      match ← childOf ar root a with
      | none => pure none
      | some c => addNodeLoop ar root c rest

/-- tree.go `addNode`: navigate `paths[:len(paths)-1]` from the tree root
(see `addNodeLoop`), then `AddChild` the node onto the final compound. -/
def addNode (ar : Arena) (root toAdd : Nat) (paths : List Addr) :
    Except PanicKind Arena := do
  let start ←
    if isCompound ar root && !paths.isEmpty then
      addNodeLoop ar root root paths.dropLast
    else pure (some root)
  match start with
  | none => pure ar
  | some tgt => if isCompound ar tgt then pure (addChild ar tgt toAdd) else pure ar

/-- deepdiff.go `calcDeltas`, the t1-side renumbering after a deletion at
array index `idx`: every position gets `childNames[IndexAddr(i-1)] = i-1`,
and the nodes after the deleted index get `SetAddr(IndexAddr(i-1))`. -/
def renumberAfterDelete (ar : Arena) (par : Nat) (idx : Int) : Arena :=
  ((childrenOf ar par).enum).foldl
    (fun ar iv =>
      let i := iv.1
      let a := Addr.indexA ((i : Int) - 1)
      let ar := modN ar par fun n => { n with childNames := addrMapSet n.childNames a ((i : Int) - 1) }
      if (i : Int) > idx then setAddr ar iv.2 a else ar)
    ar

/-- deepdiff.go `calcDeltas`, the t1-side renumbering after an insertion at
array index `idx` (applied to the matched t1 array): every position gets
`childNames[IndexAddr(i+1)] = i+1`, and the nodes after the inserted index
get `SetAddr(IndexAddr(i+1))`. -/
def renumberAfterInsert (ar : Arena) (par : Nat) (idx : Int) : Arena :=
  ((childrenOf ar par).enum).foldl
    (fun ar iv =>
      let i := iv.1
      let a := Addr.indexA ((i : Int) + 1)
      let ar := modN ar par fun n => { n with childNames := addrMapSet n.childNames a ((i : Int) + 1) }
      if (i : Int) > idx then setAddr ar iv.2 a else ar)
    ar

/-- Sort sibling node ids ascending by the current printed address
(tree.go `walkSorted` sorts with `nodes.Less`, `Addr().String()` order). -/
def sortKidsByAddr (ar : Arena) (kids : List Nat) : List Nat :=
  sortByBool (fun a b => !goStrLt (addrOf ar b).strForm (addrOf ar a).strForm) kids

/-- deepdiff.go `calcDeltas`, first `walkSorted` over t1: fold unmatched
t1 nodes into t2 as deletes.  An unmatched node gets change type Delete,
its child references dropped, is re-attached under t2 at its path, and its
array siblings are renumbered downward; descent stops there.  Matched
nodes recurse into children sorted by (current) address. -/
def stage1 (fuel : Nat) (ar : Arena) (t2root id : Nat) (p : List Addr) :
    Except PanicKind Arena :=
  match fuel with
  | 0 => .error .outOfFuel
  | fuel + 1 => do
      let p := if Addr.eqA (addrOf ar id) .rootA then p else p ++ [addrOf ar id]
      if (matchOf ar id).isNone then
        let ar := setChange ar id .DTDelete
        let ar := dropChildNodes ar id
        let ar ← addNode ar t2root id p
        let ar ←
          match parentOf ar id with
          | some par =>
              if typOf ar par = .ntArray then
                match (addrOf ar id).valueInt with
                | none => .error .arrayAddrNotInt
                | some idx => pure (renumberAfterDelete ar par idx)
              else pure ar
          | none => pure ar
        pure (dropChildNodes ar id)
      else
        let kids := sortKidsByAddr ar (childrenOf ar id)
        kids.foldlM (fun ar k => stage1 fuel ar t2root k p) ar

/-- deepdiff.go `calcDeltas`, second `walkSorted` over t2: skip nodes
already marked Delete (the transplants); mark unmatched nodes Insert,
renumbering the matched t1 array upward and dropping child references;
on matched leaves, set change type Update when `compareScalar` finds a
difference — computing `p[len(p)-1]`, which panics on the empty root
path. -/
def stage2 (fuel : Nat) (ar : Arena) (id : Nat) (p : List Addr) :
    Except PanicKind Arena :=
  match fuel with
  | 0 => .error .outOfFuel
  | fuel + 1 => do
      let p := if Addr.eqA (addrOf ar id) .rootA then p else p ++ [addrOf ar id]
      if changeOf ar id = some .DTDelete then pure ar
      else
        match matchOf ar id with
        | none => do
            let ar := setChange ar id .DTInsert
            let ar ←
              match parentOf ar id with
              | some par =>
                  if typOf ar par = .ntArray then
                    match matchOf ar par with
                    | some m =>
                        if typOf ar m = .ntArray then
                          match (addrOf ar id).valueInt with
                          | none => .error .arrayAddrNotInt
                          | some idx => pure (renumberAfterInsert ar m idx)
                        else pure ar
                    | none => pure ar
                  else pure ar
              | none => pure ar
            pure (dropChildNodes ar id)
        | some m => do
            let ar ←
              if isCompound ar id then pure ar
              else
                match p.getLast? with
                | none => .error .emptyRootPath
                | some lastA =>
                    match compareScalar ar m id lastA with
                    | some _ => pure (setChange ar id .DTUpdate)
                    | none => pure ar
            let kids := sortKidsByAddr ar (childrenOf ar id)
            kids.foldlM (fun ar k => stage2 fuel ar k p) ar

/-- deepdiff.go `childDeltas`: fold every child into a delta, accumulating
the emitted list and the `hasChanges` flag.  A Context child that is
compound recurses; only when some descendant changed are the nested deltas
attached (and the value nulled) — the childless Context delta itself is
always appended.  Without the changes flag an Update is emitted as a
Delete (of the source value) followed by an Insert. -/
def childDeltas (fuel : Nat) (changes : Bool) (ar : Arena) (cmpId : Nat) :
    Except PanicKind (List Delta × Bool) :=
  match fuel with
  | 0 => .error .outOfFuel
  | fuel + 1 =>
      (childrenOf ar cmpId).foldlM (fun st n => do
        let dlt ← toDelta ar n
        let (dlt, hasChanges) ←
          if dlt.typ = .DTContext then
            if isCompound ar n then do
              let (children, childChanges) ← childDeltas fuel changes ar n
              if childChanges then
                pure (Delta.mk dlt.typ dlt.path none dlt.sourcePath dlt.sourceValue
                        children, true)
              else pure (dlt, st.2)
            else pure (dlt, st.2)
          else pure (dlt, true)
        if dlt.typ = .DTUpdate && !changes then
          let del := Delta.mk .DTDelete dlt.path dlt.sourceValue "" none []
          let ins := Delta.mk .DTInsert dlt.path dlt.value dlt.sourcePath none dlt.deltas
          pure (st.1 ++ [del, ins], hasChanges)
        else pure (st.1 ++ [dlt], hasChanges))
        ([], false)

/-- delta.go `Deltas.Less`: equal addresses order by `opOrder`; two integer
indices order numerically; otherwise by printed form. -/
def deltasLess (a b : Delta) : Bool :=
  if Addr.eqA a.path b.path then opOrder a.typ < opOrder b.typ
  else
    match a.path.valueInt, b.path.valueInt with
    | some x, some y => x < y
    | _, _ => goStrLt a.path.strForm b.path.strForm

/-- deepdiff.go `Stats` (stats.go): node counts, weights, and operation
counters. -/
structure Stats where
  left : Nat := 0
  right : Nat := 0
  leftWeight : Nat := 0
  rightWeight : Nat := 0
  inserts : Nat := 0
  updates : Nat := 0
  deletes : Nat := 0
  moves : Nat := 0
deriving DecidableEq, Repr

/-- deepdiff.go `sortDeltasAndMaybeCalcStats`: sort the sibling list with
`Deltas.Less`, recurse into nested deltas, and count Insert/Update/Delete
into the stats (when they are being collected). -/
def sortDeltasAndMaybeCalcStats (fuel : Nat) (ds : List Delta) (st : Stats) :
    Except PanicKind (List Delta × Stats) :=
  match fuel with
  | 0 => .error .outOfFuel
  | fuel + 1 =>
      (sortByBool (fun a b => !deltasLess b a) ds).foldlM (fun acc d => do
        let (d, st) ←
          if d.deltas.length > 0 then do
            let (sub, st) ← sortDeltasAndMaybeCalcStats fuel d.deltas acc.2
            pure (Delta.mk d.typ d.path d.value d.sourcePath d.sourceValue sub, st)
          else pure (d, acc.2)
        let st :=
          match d.typ with
          | .DTInsert => { st with inserts := st.inserts + 1 }
          | .DTUpdate => { st with updates := st.updates + 1 }
          | .DTDelete => { st with deletes := st.deletes + 1 }
          | _ => st
        pure (acc.1 ++ [d], st))
        ([], st)

/-- deepdiff.go `calcDeltas`: stage 1 folds t1's unmatched remainder into
t2 as deletes; stage 2 marks inserts and scalar updates on t2; if the t2
root is unmatched the script is the wholesale Delete-then-Insert pair,
otherwise `childDeltas` of the t2 root coerced to compound (`t2.(compound)`
— a scalar root panics); the script is then sorted (collecting stats). -/
def calcDeltas (changes : Bool) (ar : Arena) (t1 t2 : Nat) (st : Stats) :
    Except PanicKind (Arena × List Delta × Stats) := do
  let fuel := ar.length + 1
  let ar ← stage1 fuel ar t2 t1 []
  let ar ← stage2 fuel ar t2 []
  let script ←
    if (matchOf ar t2).isNone then do
      let del ← toDelta ar t1
      let ins ← toDelta ar t2
      pure [del, ins]
    else
      if isCompound ar t2 then do
        let (script, _) ← childDeltas fuel changes ar t2
        pure script
      else .error .rootNotCompound
  let (script, st) ← sortDeltasAndMaybeCalcStats (fuel + 1) script st
  pure (ar, script, st)

/-- The externally visible side effects of `diff` (deepdiff.go lines
101–120): opening/appending the `$HOME/diff-debug.txt` file and printing
to standard output. -/
inductive DiffEvent where
  /-- `os.OpenFile(filepath.Join(home, "diff-debug.txt"), APPEND|CREATE|WRONLY, 0644)` succeeded. -/
  | openDebugFile
  /-- A `WriteString`/`Write` to the debug file. -/
  | fileWrite (s : String)
  /-- `f.Close()`. -/
  | closeDebugFile
  /-- `fmt.Printf` to standard output. -/
  | stdout (s : String)
deriving DecidableEq, Repr

/-- The environment the debug preamble runs against: whether the debug
file opens, and what `json.MarshalIndent(v, "", " ")` yields for a value
(`none` = a marshal error, e.g. an unsupported NaN float). -/
structure DebugEnv where
  openOk : Bool
  marshalJSON : Value → Option String

/-- deepdiff.go `diff`, lines 102–120: open `$HOME/diff-debug.txt` for
append (panicking on failure), marshal d1 (panicking on failure), write
the separator and d1's JSON, marshal d2 (panicking on failure), write the
separator and d2's JSON, close, and print the notice.  Returns the event
trace so far and the panic, if any. -/
def debugPreamble (env : DebugEnv) (d1 d2 : Value) :
    List DiffEvent × Option PanicKind :=
  if !env.openOk then ([], some .debugOpenFailed)
  else
    match env.marshalJSON d1 with
    | none => ([.openDebugFile], some .debugMarshalFailed)
    | some data1 =>
        match env.marshalJSON d2 with
        | none =>
            ([.openDebugFile, .fileWrite "==================\n", .fileWrite data1],
             some .debugMarshalFailed)
        | some data2 =>
            ([.openDebugFile, .fileWrite "==================\n", .fileWrite data1,
              .fileWrite "------------------\n", .fileWrite data2, .closeDebugFile,
              .stdout "Debug info written to ~/diff-debug.txt\n"],
             none)

/-- deepdiff.go `diff` (the method on the `diff` state machine): the debug
preamble, then `prepTrees`, `queueMatch`, three `optimize` passes, and
`calcDeltas`.  `ctx` is the caller's cancellation token: it is threaded to
`prepTrees` and never consulted (no phase checks it).  Panics travel in
the `Except`; the trace carries the preamble's side effects. -/
def diffRun (env : DebugEnv) (ctx : Bool) (changes : Bool) (d1 d2 : Value) :
    List DiffEvent × Except PanicKind (List Delta × Stats) :=
  let (tr, pk) := debugPreamble env d1 d2
  match pk with
  | some k => (tr, .error k)
  | none =>
      let pre := prepTrees ctx d1 d2
      let ar := queueMatch (pre.ar.length + 1) pre.ar pre.reg [pre.t2]
                  ((weightOf pre.ar pre.t2 : Int))
      let res := do
        let ar ← optimize ar pre.t1 pre.t2
        let ar ← optimize ar pre.t1 pre.t2
        let ar ← optimize ar pre.t1 pre.t2
        let st0 : Stats :=
          { left := pre.t1Count, leftWeight := pre.t1Weight,
            right := pre.t2Count, rightWeight := pre.t2Weight }
        let (_, script, st) ← calcDeltas changes ar pre.t1 pre.t2 st0
        pure (script, st)
      (tr, res)

/-- deepdiff.go `Diff`: runs the pipeline and returns the delta script
(the Go error return is always nil; panics are the only failure mode). -/
def deepDiffDiff (env : DebugEnv) (ctx : Bool) (changes : Bool) (a b : Value) :
    List DiffEvent × Except PanicKind (List Delta) :=
  let (tr, res) := diffRun env ctx changes a b
  (tr, res.map fun r => r.1)

/-- deepdiff.go `Stat`: runs the same pipeline with stats collection and
returns the stats. -/
def deepDiffStat (env : DebugEnv) (ctx : Bool) (changes : Bool) (a b : Value) :
    List DiffEvent × Except PanicKind Stats :=
  let (tr, res) := diffRun env ctx changes a b
  (tr, res.map fun r => r.2)

/-- deepdiff.go `StatDiff`: runs the same pipeline and returns both the
script and the stats. -/
def deepDiffStatDiff (env : DebugEnv) (ctx : Bool) (changes : Bool) (a b : Value) :
    List DiffEvent × Except PanicKind (List Delta × Stats) :=
  diffRun env ctx changes a b

/-! ### The patcher (patch.go, the Addr-based implementation) -/

/-- Go panics reachable in the patcher (the reflect-based patch.go helpers
return a nil error on every path, so runtime panics are their only failure
mode). -/
inductive PatchPanic where
  /-- "non-int value for slice address" / "can't patch slice with non-int
  address value": the `addr.Value().(int)` assertion failed. -/
  | sliceAddrNotInt
  /-- `reflect` panic: a map key of the wrong type (e.g. an integer index
  into a string-keyed map), or a zero-Value key (a RootAddr). -/
  | mapKeyMismatch
  /-- `reflect` panic: a slice index / slice bound out of range. -/
  | sliceIndexOutOfRange
  /-- `reflect` panic: an operation on an invalid `reflect.Value`. -/
  | invalidValue
deriving DecidableEq, Repr

/-- Write (insert or overwrite) a key in a string-keyed map. -/
def kvsSet (kvs : List (String × Value)) (k : String) (v : Value) :
    List (String × Value) :=
  match kvs with
  | [] => [(k, v)]
  | (k', v') :: rest =>
      if k' == k then (k', v) :: rest else (k', v') :: kvsSet rest k v

/-- Delete a key from a string-keyed map (no-op when absent, as
`SetMapIndex` with a zero Value is). -/
def kvsDel (kvs : List (String × Value)) (k : String) : List (String × Value) :=
  kvs.filter fun kv => !(kv.1 == k)

/-- patch.go `set` (lines 443–468): on a map, `SetMapIndex` the key (a
string key writes; an integer or nil key is a reflect panic; writing an
invalid Value deletes the key); on a slice, assert the index (panicking
otherwise) and rebuild `xs[0:i] ++ [v] ++ xs[i+1:l]` — `Slice(0,i)` panics
when `i` exceeds the length, and `i == l` appends; any other target kind
falls through the switch unchanged.  The Go error result is always nil. -/
def setPV (target : Value) (value : Option Value) (addr : Addr) :
    Except PatchPanic Value :=
  match target with
  | .obj kvs =>
      match addr with
      | .stringA k =>
          match value with
          | some v => pure (.obj (kvsSet kvs k v))
          | none => pure (.obj (kvsDel kvs k))
      | _ => .error .mapKeyMismatch
  | .arr xs =>
      match addr.valueInt with
      | none => .error .sliceAddrNotInt
      | some i =>
          if i < 0 || i > (xs.length : Int) then .error .sliceIndexOutOfRange
          else
            match value with
            | none => .error .invalidValue
            | some v =>
                if i < (xs.length : Int) then
                  pure (.arr (xs.take i.toNat ++ [v] ++ xs.drop (i.toNat + 1)))
                else pure (.arr (xs ++ [v]))
  | _ => pure target

/-- patch.go `remove` (lines 470–499): a nil address value (RootAddr)
replaces the whole target with an empty object; a map deletes the key
(silently succeeding when absent); a slice asserts the index and rebuilds
`xs[0:i] ++ xs[i+1:l]`, panicking when `i` is negative or `i+1` exceeds
the length; any other kind falls through unchanged.  Always a nil Go
error. -/
def removePV (target : Value) (addr : Addr) : Except PatchPanic Value :=
  if addr.valueIsNil then pure (.obj [])
  else
    match target with
    | .obj kvs =>
        match addr with
        | .stringA k => pure (.obj (kvsDel kvs k))
        | _ => .error .mapKeyMismatch
    | .arr xs =>
        match addr.valueInt with
        | none => .error .sliceAddrNotInt
        | some i =>
            if i < 0 || i + 1 > (xs.length : Int) then .error .sliceIndexOutOfRange
            else pure (.arr (xs.take i.toNat ++ xs.drop (i.toNat + 1)))
    | _ => pure target

/-- patch.go `insert` (lines 501–529): a nil address value (RootAddr)
returns the inserted value (total replacement); a map writes the key; a
slice asserts the index and rebuilds `xs[0:i] ++ [v] ++ xs[i:l]`,
panicking when the index is negative or exceeds the length; any other
kind falls through unchanged.  Always a nil Go error. -/
def insertPV (target : Value) (value : Option Value) (addr : Addr) :
    Except PatchPanic Value :=
  if addr.valueIsNil then
    match value with
    | some v => pure v
    | none => .error .invalidValue
  else
    match target with
    | .obj kvs =>
        match addr with
        | .stringA k =>
            match value with
            | some v => pure (.obj (kvsSet kvs k v))
            | none => pure (.obj (kvsDel kvs k))
        | _ => .error .mapKeyMismatch
    | .arr xs =>
        match addr.valueInt with
        | none => .error .sliceAddrNotInt
        | some i =>
            if i < 0 || i > (xs.length : Int) then .error .sliceIndexOutOfRange
            else
              match value with
              | none => .error .invalidValue
              | some v => pure (.arr (xs.take i.toNat ++ [v] ++ xs.drop i.toNat))
    | _ => pure target

/-- patch.go `child` (lines 531–548): a map `MapIndex` (an invalid Value —
`none` — when the key is absent; wrong key type panics); a slice `Index`
after the int assertion (out of range panics); any other kind returns the
target itself. -/
def childPV (target : Value) (addr : Addr) : Except PatchPanic (Option Value) :=
  match target with
  | .obj kvs =>
      match addr with
      | .stringA k => pure ((kvs.find? fun kv => kv.1 == k).map fun kv => kv.2)
      | _ => .error .mapKeyMismatch
  | .arr xs =>
      match addr.valueInt with
      | none => .error .sliceAddrNotInt
      | some i =>
          if i < 0 || i ≥ (xs.length : Int) then .error .sliceIndexOutOfRange
          else pure (xs.get? i.toNat)
  | _ => pure (some target)

mutual

/-- patch.go `patch` (lines 400–441): first recurse through any nested
deltas bottom-up (fetch the child at Path, patch it, write it back), then
apply this delta's own operation.  An invalid target (`none`, the image of
a missing map child) falls through every kind switch unchanged, as an
invalid `reflect.Value` does. -/
def patchPV (target : Option Value) (delta : Delta) :
    Except PatchPanic (Option Value) :=
  match delta with
  | .mk dtyp dpath dvalue _ _ ddeltas => do
      let target ←
        if ddeltas.length > 0 then
          patchChildren target dpath ddeltas
        else pure target
      match dtyp with
      | .DTInsert =>
          match target with
          | some t => do pure (some (← insertPV t dvalue dpath))
          | none => pure target
      | .DTDelete =>
          match target with
          | some t => do pure (some (← removePV t dpath))
          | none => pure target
      | .DTUpdate =>
          match target with
          | some t => do pure (some (← setPV t dvalue dpath))
          | none => pure target
      | .DTContext => pure target

/-- The `for _, dlt := range delta.Deltas` loop of `patch`: patch the
child at `dpath` with each nested delta in turn, writing it back with
`set` after each one. -/
def patchChildren (target : Option Value) (dpath : Addr) :
    List Delta → Except PatchPanic (Option Value)
  | [] => pure target
  | dlt :: rest => do
      match target with
      | none => pure none
      | some t => do
          let patchedChild ← patchPV (← childPV t dpath) dlt
          let t' ← setPV t patchedChild dpath
          patchChildren (some t') dpath rest

end

/-- patch.go `Patch` (lines 382–398): apply each delta in order to the
target.  (The Go-side "must pass a pointer value to patch" check guards
the reflect plumbing and has no counterpart for a by-value embedding; the
pointee update `t.Set(patched)` is the returned value.) -/
def patchDeltas (deltas : List Delta) (target : Value) :
    Except PatchPanic Value :=
  match deltas with
  | [] => pure target
  | dlt :: rest => do
      match ← patchPV (some target) dlt with
      | some t => patchDeltas rest t
      | none => .error .invalidValue

/-! ### The JSON wire encoding (delta.go `MarshalJSON`) -/

/-- JSON documents, as produced by `encoding/json` for the value algebra
(floats keep their canonical decimal form). -/
inductive Json where
  | null : Json
  | jbool (b : Bool) : Json
  | jnum (n : Int) : Json
  | jfloat (form : String) : Json
  | jstr (s : String) : Json
  | jarr (xs : List Json) : Json
  | jobj (kvs : List (String × Json)) : Json
deriving Repr

mutual

/-- Encoding `json.Marshal` of a generic value (map keys are emitted sorted, as
encoding/json does). -/
def encodeValue : Value → Json
  | .null => .null
  | .bool b => .jbool b
  | .int n => .jnum n
  | .float form => .jfloat form
  | .str s => .jstr s
  | .arr xs => .jarr (encodeValueList xs)
  | .obj kvs => .jobj (sortByBool (fun a b => !goStrLt b.1 a.1) (encodeValueKVs kvs))

def encodeValueList : List Value → List Json
  | [] => []
  | v :: vs => encodeValue v :: encodeValueList vs

def encodeValueKVs : List (String × Value) → List (String × Json)
  | [] => []
  | kv :: rest => (kv.1, encodeValue kv.2) :: encodeValueKVs rest

end

/-- The operation symbol on the wire (delta.go constants): Context " ",
Delete "-", Insert "+", Update "~". -/
def opSymbol : Operation → String
  | .DTContext => " "
  | .DTDelete => "-"
  | .DTInsert => "+"
  | .DTUpdate => "~"

/-- delta.go `MarshalJSON` of an Addr: a string for StringAddr, an integer
for IndexAddr, JSON null for RootAddr. -/
def marshalAddr : Addr → Json
  | .rootA => .null
  | .stringA s => .jstr s
  | .indexA i => .jnum i

mutual

/-- delta.go `Delta.MarshalJSON` (lines 159–167): start the tuple with the
operation symbol and the address; with nested deltas append `nil` and the
marshalled children, otherwise append the value.  (`d.SourceValue` is
never consulted.) -/
def marshalDelta : Delta → Json
  | .mk dtyp dpath dvalue _ _ ddeltas =>
      if ddeltas.length > 0 then
        .jarr [.jstr (opSymbol dtyp), marshalAddr dpath, .null,
               .jarr (marshalDeltaList ddeltas)]
      else
        .jarr [.jstr (opSymbol dtyp), marshalAddr dpath,
               (match dvalue with | some v => encodeValue v | none => .null)]

def marshalDeltaList : List Delta → List Json
  | [] => []
  | d :: ds => marshalDelta d :: marshalDeltaList ds

end

/-- A concrete environment in which the debug file opens and every value
marshals (used to instantiate closed statements about the pipeline). -/
def envDefault : DebugEnv := ⟨true, fun _ => some "J"⟩

/-- The arena of two one-entry objects (used to exercise `matchNodes` on
children whose parents are the two roots). -/
def arC5 : Arena :=
  (prepTrees false (Value.obj [("k", .int 1)]) (Value.obj [("k", .int 2)])).ar

/-- A subtree is entirely unchanged: its change type is (or defaults to)
Context and, recursively, so are all its children's.  The fuel mirrors
`childDeltas`' own fuel. -/
def allContext (fuel : Nat) (ar : Arena) (id : Nat) : Bool :=
  match fuel with
  | 0 => false
  | fuel + 1 =>
      decide ((changeOf ar id).getD .DTContext = .DTContext)
      && (childrenOf ar id).all fun k => allContext fuel ar k

/-- The childless Context delta `childDeltas` emits for a fully-unchanged
child: its (current) address and its value, no children attached. -/
def contextLeafDelta (ar : Arena) (n : Nat) : Delta :=
  .mk .DTContext (addrOf ar n) (some (valueOf ar n)) "" none []

/-- The arena, matched by `queueMatch`, of the equal scalar inputs
("x", "x"): ids 0 and 1 are the two single-node roots. -/
def arScalar : Arena :=
  let pre := prepTrees false (Value.str "x") (Value.str "x")
  queueMatch (pre.ar.length + 1) pre.ar pre.reg [pre.t2]
    ((weightOf pre.ar pre.t2 : Int))

/-- The full success trace of the `diff` debug preamble: open the debug
file, write the separator and the first document's JSON, the separator and
the second document's JSON, close, and print the notice. -/
def debugTraceFull (da db : String) : List DiffEvent :=
  [.openDebugFile, .fileWrite "==================\n", .fileWrite da,
   .fileWrite "------------------\n", .fileWrite db, .closeDebugFile,
   .stdout "Debug info written to ~/diff-debug.txt\n"]

end Deepdiff

open Deepdiff

/-! ## Supporting lemmas -/

theorem valueWeightList_eq (xs : List Value) :
    valueWeightList xs = (xs.map valueWeight).sum := by
  induction xs with
  | nil => rfl
  | cons v vs ih => simp [valueWeightList, ih]

theorem valueWeightKVs_eq (kvs : List (String × Value)) :
    valueWeightKVs kvs = (kvs.map fun kv => valueWeight kv.2).sum := by
  induction kvs with
  | nil => rfl
  | cons kv rest ih => simp [valueWeightKVs, ih]

theorem marshalDeltaList_eq (ds : List Delta) :
    marshalDeltaList ds = ds.map marshalDelta := by
  induction ds with
  | nil => rfl
  | cons d rest ih => simp [marshalDeltaList, ih]

theorem kvsDel_absent (kvs : List (String × Value)) (k : String)
    (h : (kvs.find? fun kv => kv.1 == k) = none) : kvsDel kvs k = kvs := by
  rw [List.find?_eq_none] at h
  induction kvs with
  | nil => rfl
  | cons kv rest ih =>
      have h1 : (kv.1 == k) = false := by
        have := h kv (List.mem_cons_self kv rest)
        simpa using this
      have hrest : ∀ a ∈ rest, ¬((a.1 == k) = true) :=
        fun a ha => h a (List.mem_cons_of_mem _ ha)
      have ihr := ih hrest
      simp [kvsDel, List.filter_cons, h1] at ihr ⊢
      exact ihr

theorem kvsSet_absent (kvs : List (String × Value)) (k : String) (v : Value)
    (h : (kvs.find? fun kv => kv.1 == k) = none) :
    kvsSet kvs k v = kvs ++ [(k, v)] := by
  rw [List.find?_eq_none] at h
  induction kvs with
  | nil => rfl
  | cons kv rest ih =>
      have h1 : (kv.1 == k) = false := by
        have := h kv (List.mem_cons_self kv rest)
        simpa using this
      have hrest : ∀ a ∈ rest, ¬((a.1 == k) = true) :=
        fun a ha => h a (List.mem_cons_of_mem _ ha)
      simp [kvsSet, h1, ih hrest]

theorem getN_setMatch_self (ar : Arena) (i j : Nat) (h : i < ar.length) :
    getN (setMatch ar i j) i = { getN ar i with matchId := some j } := by
  simp [setMatch, modN, getN, List.getElem?_set_self h]

theorem getN_setMatch_ne (ar : Arena) (i j k : Nat) (h : i ≠ k) :
    getN (setMatch ar i j) k = getN ar k := by
  simp [setMatch, modN, getN, List.getElem?_set_ne h]

theorem matchOf_setMatch_self (ar : Arena) (i j : Nat) (h : i < ar.length) :
    matchOf (setMatch ar i j) i = some j := by
  simp [matchOf, getN_setMatch_self ar i j h]

theorem matchOf_setMatch_ne (ar : Arena) (i j k : Nat) (h : i ≠ k) :
    matchOf (setMatch ar i j) k = matchOf ar k := by
  simp [matchOf, getN_setMatch_ne ar i j k h]

theorem setMatch_length (ar : Arena) (i j : Nat) :
    (setMatch ar i j).length = ar.length := by
  simp [setMatch, modN]

theorem parentOf_setMatch (ar : Arena) (i j k : Nat) :
    parentOf (setMatch ar i j) k = parentOf ar k := by
  by_cases hik : i = k
  · subst hik
    by_cases hlen : i < ar.length
    · simp [parentOf, getN_setMatch_self ar i j hlen]
    · simp [setMatch, modN, getN, parentOf,
            List.set_eq_of_length_le (by omega : ar.length ≤ i)]
  · simp [parentOf, getN_setMatch_ne ar i j k hik]

theorem addrOf_setMatch (ar : Arena) (i j k : Nat) :
    addrOf (setMatch ar i j) k = addrOf ar k := by
  by_cases hik : i = k
  · subst hik
    by_cases hlen : i < ar.length
    · simp [addrOf, getN_setMatch_self ar i j hlen]
    · simp [setMatch, modN, getN, addrOf,
            List.set_eq_of_length_le (by omega : ar.length ≤ i)]
  · simp [addrOf, getN_setMatch_ne ar i j k hik]

/-! ## C3 — empty Object vs empty Array -/

/-- C3 counterexample: the tree builder's empty Object node and empty
Array node have different kinds but EQUAL hashes (both are the bare
`Sum(nil)` of a fresh FNV-64 hasher that absorbed no child hashes), so
"distinct subtree hashes" fails on this input pair. -/
theorem C3_counterexample :
    (getN (buildTree (Value.obj []) .rootA none []).1 0).typ ≠
      (getN (buildTree (Value.arr []) .rootA none []).1 0).typ
    ∧ (getN (buildTree (Value.obj []) .rootA none []).1 0).hash =
      (getN (buildTree (Value.arr []) .rootA none []).1 0).hash := by
  exact ⟨by decide, rfl⟩

/-- C3 (amended): an empty Object node and an empty Array node built by
the tree builder are distinguishable by kind only — their kinds differ,
but their subtree hashes coincide (both equal the sum of the untouched
FNV-64 state). -/
theorem C3_empty_compounds :
    (getN (buildTree (Value.obj []) .rootA none []).1 0).typ = .ntObject
    ∧ (getN (buildTree (Value.arr []) .rootA none []).1 0).typ = .ntArray
    ∧ NodeType.ntObject ≠ NodeType.ntArray
    ∧ (getN (buildTree (Value.obj []) .rootA none []).1 0).hash
        = hashSum [] fnv64Basis
    ∧ (getN (buildTree (Value.arr []) .rootA none []).1 0).hash
        = hashSum [] fnv64Basis := by
  exact ⟨rfl, rfl, by decide, rfl, rfl⟩

/-! ## C4 — node weights -/

/-- C4 counterexample: a Null node's weight is the hardcoded 1, not the
byte length 4 of its hashed textual form "null"; and an empty-String
node's weight is 0, refuting "every node's weight is at least 1".  (The
nodes are taken from the tree builder itself.) -/
theorem C4_counterexample :
    (getN (buildTree Value.null .rootA none []).1 0).weight = 1
    ∧ scalarText Value.null = some "null"
    ∧ ("null").utf8ByteSize = 4
    ∧ (getN (buildTree (Value.str "") .rootA none []).1 0).weight = 0 := by
  exact ⟨rfl, rfl, by decide, rfl⟩

/-- C4 (amended): a non-Null leaf's weight equals the byte length of its
hashed textual form, but Null's weight is the hardcoded 1 (its text "null"
has length 4); a compound's weight is 1 plus the sum of its children's
weights; and a node's weight is zero — violating "weight ≥ 1" — exactly
when it is a leaf whose textual form is empty (in Go only a String leaf
of the empty string, since the canonical float form is never empty). -/
theorem C4_weight_contract :
    (valueWeight .null = 1 ∧ ("null").utf8ByteSize = 4)
    ∧ (∀ v t, v ≠ Value.null → scalarText v = some t →
        valueWeight v = t.utf8ByteSize)
    ∧ (∀ xs, valueWeight (.arr xs) = 1 + (xs.map valueWeight).sum)
    ∧ (∀ kvs, valueWeight (.obj kvs) =
        1 + (kvs.map fun kv => valueWeight kv.2).sum)
    ∧ (∀ v, valueWeight v = 0 ↔
        ∃ t, scalarText v = some t ∧ t.utf8ByteSize = 0) := by
  refine ⟨⟨rfl, by decide⟩, ?_, ?_, ?_, ?_⟩
  · intro v t hne h
    cases v with
    | null => exact absurd rfl hne
    | bool b => cases b <;> simp_all [scalarText, valueWeight]
    | int n => simp_all [scalarText, valueWeight]
    | float form => simp_all [scalarText, valueWeight]
    | str s => simp_all [scalarText, valueWeight]
    | arr xs => simp [scalarText] at h
    | obj kvs => simp [scalarText] at h
  · intro xs; simp [valueWeight, valueWeightList_eq]
  · intro kvs; simp [valueWeight, valueWeightKVs_eq]
  · intro v
    cases v with
    | null =>
        constructor
        · intro h; exact absurd h (by decide)
        · rintro ⟨t, ht, hz⟩
          simp [scalarText] at ht
          subst ht
          exact absurd hz (by decide)
    | bool b => cases b <;> simp [valueWeight, scalarText]
    | int n => simp [valueWeight, scalarText]
    | float form => simp [valueWeight, scalarText]
    | str s => simp [valueWeight, scalarText]
    | arr xs => simp [valueWeight, scalarText]
    | obj kvs => simp [valueWeight, scalarText]

/-- Closed instantiation of `C4_weight_contract`'s conditional parts. -/
theorem C4_weight_contract_witness :
    valueWeight (Value.str "ab") = ("ab").utf8ByteSize
    ∧ valueWeight (Value.arr [Value.null]) =
        1 + ([Value.null].map valueWeight).sum := by
  refine ⟨C4_weight_contract.2.1 (Value.str "ab") "ab" (by simp) rfl, ?_⟩
  exact C4_weight_contract.2.2.1 [Value.null]

/-! ## C6 — the JSON wire encoding -/

/-- C6 counterexample: an Update delta carrying a source value serializes
to the 3-tuple [op, address, value] — `MarshalJSON` never appends the
source value, so the claimed leaf form [op, address, value,
sourceValueOpt] with the (present) optional source value does not occur. -/
theorem C6_counterexample :
    (Delta.mk .DTUpdate (.stringA "a") (some (.int 3)) "" (some (.int 2))
        []).sourceValue = some (Value.int 2)
    ∧ marshalDelta (Delta.mk .DTUpdate (.stringA "a") (some (.int 3)) ""
        (some (.int 2)) [])
        = .jarr [.jstr "~", .jstr "a", .jnum 3]
    ∧ Json.jarr [.jstr "~", .jstr "a", .jnum 3]
        ≠ .jarr [.jstr "~", .jstr "a", .jnum 3, encodeValue (.int 2)] := by
  refine ⟨rfl, rfl, ?_⟩
  intro h
  have hlen := congrArg (fun j => match j with | Json.jarr xs => xs.length | _ => 0) h
  simp at hlen

/-- C6 (amended): every delta serializes as a tuple headed by the
operation symbol and the address — [op, address, value] when it carries no
nested deltas, [op, address, null, childDeltas] when it does — and the
encoding is independent of the source value and source path (they are
never emitted). -/
theorem C6_wire_format :
    (∀ d : Delta, d.deltas = [] → marshalDelta d =
        .jarr [.jstr (opSymbol d.typ), marshalAddr d.path,
               (match d.value with | some v => encodeValue v | none => Json.null)])
    ∧ (∀ d : Delta, d.deltas ≠ [] → marshalDelta d =
        .jarr [.jstr (opSymbol d.typ), marshalAddr d.path, .null,
               .jarr (d.deltas.map marshalDelta)])
    ∧ (∀ t p v sp sp' sv sv' ds,
        marshalDelta (Delta.mk t p v sp sv ds) =
          marshalDelta (Delta.mk t p v sp' sv' ds)) := by
  refine ⟨?_, ?_, ?_⟩
  · intro d h
    match d with
    | .mk t p v sp sv ds =>
        simp [Delta.deltas] at h
        simp [marshalDelta, h, Delta.typ, Delta.path, Delta.value]
  · intro d h
    match d with
    | .mk t p v sp sv ds =>
        simp [Delta.deltas] at h
        have : ds.length > 0 := List.length_pos.mpr h
        simp [marshalDelta, this, Delta.typ, Delta.path, Delta.deltas,
              marshalDeltaList_eq]
  · intro t p v sp sp' sv sv' ds
    simp [marshalDelta]

/-- Closed instantiation of `C6_wire_format`'s two conditional parts. -/
theorem C6_wire_format_witness :
    marshalDelta (Delta.mk .DTInsert (.indexA 1) (some (.int 5)) "" none [])
      = .jarr [.jstr (opSymbol .DTInsert), marshalAddr (.indexA 1), encodeValue (.int 5)]
    ∧ marshalDelta (Delta.mk .DTContext (.stringA "b") none "" none
        [Delta.mk .DTDelete (.indexA 0) (some .null) "" none []])
      = .jarr [.jstr (opSymbol .DTContext), marshalAddr (.stringA "b"), .null,
               .jarr ([Delta.mk .DTDelete (.indexA 0) (some .null) "" none []].map marshalDelta)] := by
  exact ⟨C6_wire_format.1 _ rfl, C6_wire_format.2.1 _ (by simp [Delta.deltas])⟩

/-! ## C7 — patcher failure modes -/

/-- C7 counterexample: a Delete addressing a key absent from the object is
a silent no-op (`SetMapIndex` with a zero Value), and an Update addressing
an absent key inserts it — Patch reports success in both cases, so
"addressing a non-existent key on a Delete or Update is fatal" fails. -/
theorem C7_counterexample :
    patchDeltas [Delta.mk .DTDelete (.stringA "b") none "" none []]
        (Value.obj [("a", .int 1)])
      = .ok (Value.obj [("a", .int 1)])
    ∧ patchDeltas [Delta.mk .DTUpdate (.stringA "b") (some (.int 2)) "" none []]
        (Value.obj [("a", .int 1)])
      = .ok (Value.obj [("a", .int 1), ("b", .int 2)]) := by
  exact ⟨rfl, rfl⟩

/-- C7 (amended): what `set`/`remove` actually do at each failure the
claim names.  On objects, a Delete of an absent key silently succeeds
unchanged and an Update of an absent key appends it (never an error).  On
arrays, an out-of-range index is a runtime panic — except that an Update
at index = length appends — and a non-integer address is the explicit
"non-int value for slice address" panic.  An integer index into an object
is the reflect map-key panic.  A leaf target falls through every switch
unchanged.  No delta application ever returns a Go error. -/
theorem C7_patch_failures :
    (∀ kvs k, (kvs.find? fun kv => kv.1 == k) = none →
        removePV (Value.obj kvs) (.stringA k) = .ok (Value.obj kvs)
        ∧ patchDeltas [Delta.mk .DTDelete (.stringA k) none "" none []]
            (Value.obj kvs) = .ok (Value.obj kvs))
    ∧ (∀ kvs k v, (kvs.find? fun kv => kv.1 == k) = none →
        setPV (Value.obj kvs) (some v) (.stringA k)
          = .ok (Value.obj (kvs ++ [(k, v)])))
    ∧ (∀ xs (i : Int), i < 0 ∨ (xs.length : Int) ≤ i →
        removePV (Value.arr xs) (.indexA i) = .error .sliceIndexOutOfRange)
    ∧ (∀ xs (i : Int) v, i < 0 ∨ (xs.length : Int) < i →
        setPV (Value.arr xs) (some v) (.indexA i) = .error .sliceIndexOutOfRange)
    ∧ (∀ xs v, setPV (Value.arr xs) (some v) (.indexA (xs.length : Int))
        = .ok (Value.arr (xs ++ [v])))
    ∧ (∀ kvs (i : Int) v, setPV (Value.obj kvs) v (.indexA i)
        = .error .mapKeyMismatch)
    ∧ (∀ xs s v, setPV (Value.arr xs) v (.stringA s) = .error .sliceAddrNotInt)
    ∧ (∀ s a v, setPV (Value.str s) v a = .ok (Value.str s)) := by
  refine ⟨?_, ?_, ?_, ?_, ?_, ?_, ?_, ?_⟩
  · intro kvs k h
    have hdel := kvsDel_absent kvs k h
    refine ⟨?_, ?_⟩
    · show removePV _ _ = _
      simp only [removePV, Addr.valueIsNil, Bool.false_eq_true, if_false, hdel]
      rfl
    · show patchDeltas _ _ = _
      simp [patchDeltas, patchPV, Delta.deltas, removePV, Addr.valueIsNil, hdel]
      all_goals rfl
  · intro kvs k v h
    have hset := kvsSet_absent kvs k v h
    show setPV _ _ _ = _
    simp only [setPV, hset]
    rfl
  · intro xs i h
    have hc : (i < 0 || i + 1 > (xs.length : Int)) = true := by
      rcases h with h | h
      · simp [h]
      · simp only [gt_iff_lt, Bool.or_eq_true, decide_eq_true_eq]; omega
    show removePV _ _ = _
    simp only [removePV, Addr.valueIsNil, Bool.false_eq_true, if_false,
               Addr.valueInt, hc, if_true]
  · intro xs i v h
    have hc : (i < 0 || i > (xs.length : Int)) = true := by
      rcases h with h | h
      · simp [h]
      · simp only [gt_iff_lt, Bool.or_eq_true, decide_eq_true_eq]; omega
    show setPV _ _ _ = _
    simp only [setPV, Addr.valueInt, hc, if_true]
  · intro xs v
    have hc : (((xs.length : Int) < 0 || (xs.length : Int) > (xs.length : Int))) = false := by
      simp only [gt_iff_lt, Bool.or_eq_false_iff, decide_eq_false_iff_not]
      omega
    have hc2 : ¬((xs.length : Int) < (xs.length : Int)) := lt_irrefl _
    show setPV _ _ _ = _
    simp only [setPV, Addr.valueInt, hc, Bool.false_eq_true, if_false, hc2]
    rfl
  · intro kvs i v
    rfl
  · intro xs s v
    rfl
  · intro s a v
    rfl

/-- Closed instantiation of `C7_patch_failures`' conditional parts. -/
theorem C7_patch_failures_witness :
    removePV (Value.obj [("a", .int 1)]) (.stringA "z")
      = .ok (Value.obj [("a", .int 1)])
    ∧ removePV (Value.arr [.int 1]) (.indexA 3) = .error .sliceIndexOutOfRange
    ∧ setPV (Value.arr [.int 1]) (some (.int 9)) (.indexA 5)
      = .error .sliceIndexOutOfRange := by
  refine ⟨(C7_patch_failures.1 [("a", .int 1)] "z" rfl).1, ?_, ?_⟩
  · exact C7_patch_failures.2.2.1 [.int 1] 3 (by right; decide)
  · exact C7_patch_failures.2.2.2.1 [.int 1] 5 (.int 9) (by right; decide)

/-! ## C8 — cancellation is never consulted -/

/-- C8 counterexample: with the cancellation token already fired
(`ctx = true`), Diff still returns the computed delta script — not any
cancellation failure. -/
theorem C8_counterexample :
    (deepDiffDiff envDefault true false
        (Value.arr [Value.arr [Value.int 1]])
        (Value.arr [Value.arr [Value.int 1], Value.arr [Value.int 2]])).2
      = .ok [Delta.mk .DTContext (.indexA 0)
               (some (Value.arr [Value.int 1])) "" none [],
             Delta.mk .DTInsert (.indexA 1)
               (some (Value.arr [Value.int 2])) "" none []] := by
  rfl

/-- C8 (amended): the pipeline accepts the cancellation token but no phase
ever consults it — the tree builds, the matcher, and everything after run
to completion regardless, and the result of Diff, Stat and StatDiff is
identical for a fired and an unfired token. -/
theorem C8_ctx_ignored :
    (∀ (ctx : Bool) (d1 d2 : Value), prepTrees ctx d1 d2 = prepTrees false d1 d2)
    ∧ (∀ (env : DebugEnv) (ctx changes : Bool) (a b : Value),
        diffRun env ctx changes a b = diffRun env false changes a b)
    ∧ (∀ (env : DebugEnv) (ctx changes : Bool) (a b : Value),
        deepDiffDiff env ctx changes a b = deepDiffDiff env false changes a b)
    ∧ (∀ (env : DebugEnv) (ctx changes : Bool) (a b : Value),
        deepDiffStat env ctx changes a b = deepDiffStat env false changes a b)
    ∧ (∀ (env : DebugEnv) (ctx changes : Bool) (a b : Value),
        deepDiffStatDiff env ctx changes a b
          = deepDiffStatDiff env false changes a b) := by
  exact ⟨fun _ _ _ => rfl, fun _ _ _ _ _ => rfl, fun _ _ _ _ _ => rfl,
         fun _ _ _ _ _ => rfl, fun _ _ _ _ _ => rfl⟩

/-! ## C5 — upward match propagation (`matchNodes`) -/

/-- C5 (amended): when `matchNodes` establishes n1 ↔ n2, at most one
additional ancestor pair is matched, and the two parents are matched
exactly when both exist and their addresses are `Eq` — the code imposes no
further conditions: a Root address qualifies (RootAddr.Eq(RootAddr) is
true) and an existing match on a parent is silently overwritten.  No node
outside {n1, n2, parent(n1), parent(n2)} changes its match, so no further
ancestors are climbed. -/
theorem C5_match_propagation (ar : Arena) (n1 n2 p1 p2 : Nat)
    (hl1 : n1 < ar.length) (hl2 : n2 < ar.length)
    (hp1l : p1 < ar.length) (hp2l : p2 < ar.length)
    (hp1 : parentOf ar n1 = some p1) (hp2 : parentOf ar n2 = some p2)
    (h12 : n1 ≠ n2) (hp1n1 : p1 ≠ n1) (hp1n2 : p1 ≠ n2)
    (hp2n1 : p2 ≠ n1) (hp2n2 : p2 ≠ n2) (hpp : p1 ≠ p2) :
    (matchOf (matchNodes ar n1 n2) n1 = some n2
      ∧ matchOf (matchNodes ar n1 n2) n2 = some n1)
    ∧ (Addr.eqA (addrOf ar p1) (addrOf ar p2) = true →
        matchOf (matchNodes ar n1 n2) p1 = some p2
        ∧ matchOf (matchNodes ar n1 n2) p2 = some p1)
    ∧ (Addr.eqA (addrOf ar p1) (addrOf ar p2) = false →
        matchOf (matchNodes ar n1 n2) p1 = matchOf ar p1
        ∧ matchOf (matchNodes ar n1 n2) p2 = matchOf ar p2)
    ∧ (∀ k, k ≠ n1 → k ≠ n2 → k ≠ p1 → k ≠ p2 →
        matchOf (matchNodes ar n1 n2) k = matchOf ar k) := by
  have hpar1 : parentOf (setMatch (setMatch ar n1 n2) n2 n1) n1 = some p1 := by
    rw [parentOf_setMatch, parentOf_setMatch]; exact hp1
  have hpar2 : parentOf (setMatch (setMatch ar n1 n2) n2 n1) n2 = some p2 := by
    rw [parentOf_setMatch, parentOf_setMatch]; exact hp2
  have haddr1 : addrOf (setMatch (setMatch ar n1 n2) n2 n1) p1 = addrOf ar p1 := by
    rw [addrOf_setMatch, addrOf_setMatch]
  have haddr2 : addrOf (setMatch (setMatch ar n1 n2) n2 n1) p2 = addrOf ar p2 := by
    rw [addrOf_setMatch, addrOf_setMatch]
  have hl2' : n2 < (setMatch ar n1 n2).length := by
    rw [setMatch_length]; exact hl2
  have hp1l' : p1 < (setMatch (setMatch ar n1 n2) n2 n1).length := by
    rw [setMatch_length, setMatch_length]; exact hp1l
  have hp2l' : p2 < (setMatch (setMatch (setMatch ar n1 n2) n2 n1) p1 p2).length := by
    rw [setMatch_length, setMatch_length, setMatch_length]; exact hp2l
  simp only [matchNodes, hpar1, hpar2, haddr1, haddr2]
  by_cases heq : Addr.eqA (addrOf ar p1) (addrOf ar p2) = true
  · rw [heq]
    simp only [if_true]
    refine ⟨⟨?_, ?_⟩, ?_, ?_, ?_⟩
    · rw [matchOf_setMatch_ne _ _ _ _ hp2n1,
          matchOf_setMatch_ne _ _ _ _ hp1n1,
          matchOf_setMatch_ne _ _ _ _ (Ne.symm h12),
          matchOf_setMatch_self _ _ _ hl1]
    · rw [matchOf_setMatch_ne _ _ _ _ hp2n2,
          matchOf_setMatch_ne _ _ _ _ hp1n2,
          matchOf_setMatch_self _ _ _ hl2']
    · intro _
      constructor
      · rw [matchOf_setMatch_ne _ _ _ _ (Ne.symm hpp),
            matchOf_setMatch_self _ _ _ hp1l']
      · rw [matchOf_setMatch_self _ _ _ hp2l']
    · intro hfalse; exact Bool.noConfusion hfalse
    · intro k hk1 hk2 hk3 hk4
      rw [matchOf_setMatch_ne _ _ _ _ (Ne.symm hk4),
          matchOf_setMatch_ne _ _ _ _ (Ne.symm hk3),
          matchOf_setMatch_ne _ _ _ _ (Ne.symm hk2),
          matchOf_setMatch_ne _ _ _ _ (Ne.symm hk1)]
  · have heqf : Addr.eqA (addrOf ar p1) (addrOf ar p2) = false :=
      Bool.eq_false_iff.mpr heq
    rw [heqf]
    simp only [Bool.false_eq_true, if_false]
    refine ⟨⟨?_, ?_⟩, ?_, ?_, ?_⟩
    · rw [matchOf_setMatch_ne _ _ _ _ (Ne.symm h12),
          matchOf_setMatch_self _ _ _ hl1]
    · rw [matchOf_setMatch_self _ _ _ hl2']
    · intro htrue; exact htrue.elim
    · intro _
      constructor
      · rw [matchOf_setMatch_ne _ _ _ _ (Ne.symm hp1n2),
            matchOf_setMatch_ne _ _ _ _ (Ne.symm hp1n1)]
      · rw [matchOf_setMatch_ne _ _ _ _ (Ne.symm hp2n2),
            matchOf_setMatch_ne _ _ _ _ (Ne.symm hp2n1)]
    · intro k hk1 hk2 _ _
      rw [matchOf_setMatch_ne _ _ _ _ (Ne.symm hk2),
          matchOf_setMatch_ne _ _ _ _ (Ne.symm hk1)]

/-- C5 counterexample: matching the two "k" children makes `matchNodes`
match the two PARENTS even though their shared address is Root
(`RootAddr.Eq(RootAddr)` is true), refuting "the two parents are matched
exactly when … that address is non-Root …". -/
theorem C5_counterexample :
    parentOf arC5 1 = some 0 ∧ parentOf arC5 3 = some 2
    ∧ addrOf arC5 0 = .rootA ∧ addrOf arC5 2 = .rootA
    ∧ matchOf (matchNodes arC5 1 3) 0 = some 2
    ∧ matchOf (matchNodes arC5 1 3) 2 = some 0 := by
  exact ⟨rfl, rfl, rfl, rfl, rfl, rfl⟩

/-- Closed instantiation of `C5_match_propagation` (equal parent
addresses, here both Root). -/
theorem C5_match_propagation_witness :
    matchOf (matchNodes arC5 1 3) 1 = some 3
    ∧ matchOf (matchNodes arC5 1 3) 0 = some 2 := by
  have h := C5_match_propagation arC5 1 3 0 2
    (by decide) (by decide) (by decide) (by decide) rfl rfl
    (by decide) (by decide) (by decide) (by decide) (by decide) (by decide)
  exact ⟨h.1.1, (h.2.1 rfl).1⟩

/-! ## C2 — Diff(a,a) and Context-subtree elision -/

theorem allContext_change (fuel : Nat) (ar : Arena) (n : Nat)
    (h : allContext fuel ar n = true) :
    (changeOf ar n).getD .DTContext = .DTContext := by
  cases fuel with
  | zero => simp [allContext] at h
  | succ f =>
      simp only [allContext, Bool.and_eq_true, decide_eq_true_eq] at h
      exact h.1

theorem foldlM_ctx {f : (List Delta × Bool) → Nat → Except PanicKind (List Delta × Bool)}
    {P : Nat → Prop} {g : Nat → Delta}
    (hf : ∀ acc n, P n → f (acc, false) n = .ok (acc ++ [g n], false)) :
    ∀ (ch : List Nat) (acc : List Delta), (∀ n ∈ ch, P n) →
      ch.foldlM f (acc, false) = .ok (acc ++ ch.map g, false) := by
  intro ch
  induction ch with
  | nil =>
      intro acc _
      simp only [List.foldlM_nil, List.map_nil, List.append_nil]
      rfl
  | cons n rest ihc =>
      intro acc h
      have h1 := h n (List.mem_cons_self n rest)
      have h2 : ∀ m ∈ rest, P m := fun m hm => h m (List.mem_cons_of_mem _ hm)
      rw [List.foldlM_cons, hf acc n h1]
      have hbind : (Except.ok (acc ++ [g n], false) >>=
          fun s => rest.foldlM f s : Except PanicKind (List Delta × Bool))
          = rest.foldlM f (acc ++ [g n], false) := rfl
      rw [hbind, ihc (acc ++ [g n]) h2]
      simp

/-- C2 (amended): during delta emission a Context subtree none of whose
descendants produced a change is NOT elided as a whole — `childDeltas`
still emits a childless Context delta carrying the subtree's address and
value; only its nested children are elided (`hasChanges` stays false, so
the caller attaches nothing).  Consequently Diff(a, a) returns one such
Context delta per root child rather than an empty list (empty only when
the root compound has no children). -/
theorem C2_context_elision :
    ∀ (fuel : Nat) (changes : Bool) (ar : Arena) (id : Nat),
      allContext fuel ar id = true →
      childDeltas fuel changes ar id =
        .ok ((childrenOf ar id).map (contextLeafDelta ar), false) := by
  intro fuel
  induction fuel with
  | zero => intro changes ar id h; simp [allContext] at h
  | succ fuel ih =>
      intro changes ar id h
      simp only [allContext, Bool.and_eq_true, List.all_eq_true,
                 decide_eq_true_eq] at h
      obtain ⟨hhead, hkids⟩ := h
      simp only [childDeltas]
      have main := foldlM_ctx (f := fun st n => do
          let dlt ← toDelta ar n
          let (dlt, hasChanges) ←
            if dlt.typ = .DTContext then
              if isCompound ar n then do
                let (children, childChanges) ← childDeltas fuel changes ar n
                if childChanges then
                  pure (Delta.mk dlt.typ dlt.path none dlt.sourcePath dlt.sourceValue
                          children, true)
                else pure (dlt, st.2)
              else pure (dlt, st.2)
            else pure (dlt, true)
          if dlt.typ = .DTUpdate && !changes then
            let del := Delta.mk .DTDelete dlt.path dlt.sourceValue "" none []
            let ins := Delta.mk .DTInsert dlt.path dlt.value dlt.sourcePath none dlt.deltas
            pure (st.1 ++ [del, ins], hasChanges)
          else pure (st.1 ++ [dlt], hasChanges))
        (P := fun n => allContext fuel ar n = true)
        (g := contextLeafDelta ar)
        ?_ (childrenOf ar id) [] hkids
      · simpa using main
      · intro acc n hn
        have hch := allContext_change fuel ar n hn
        have htd : toDelta ar n = .ok (contextLeafDelta ar n) := by
          simp [toDelta, hch, contextLeafDelta, pure, Except.pure]
        have hok : ∀ {α β : Type} (x : α) (k : α → Except PanicKind β),
            (Except.ok x >>= k) = k x := fun x k => rfl
        by_cases hc : isCompound ar n = true
        · have hrec := ih changes ar n hn
          simp [htd, hc, hrec, hok, contextLeafDelta, Delta.typ, Delta.path,
                Delta.value, Delta.sourcePath, Delta.sourceValue, Delta.deltas,
                pure, Except.pure]
        · have hc' : isCompound ar n = false := Bool.eq_false_iff.mpr hc
          simp [htd, hc', hok, contextLeafDelta, Delta.typ, Delta.path,
                Delta.value, Delta.sourcePath, Delta.sourceValue, Delta.deltas,
                pure, Except.pure]

/-- Closed instantiation of `C2_context_elision` on the built arena of a
one-entry object (everything unchanged). -/
theorem C2_context_elision_witness :
    childDeltas 2 false arC5 2 =
      .ok ((childrenOf arC5 2).map (contextLeafDelta arC5), false) :=
  C2_context_elision 2 false arC5 2 rfl

/-- C2 counterexample: Diff(a, a) on a = {"a": true} returns a one-element
script — a childless Context delta for the root's child — not the empty
delta list the claim requires; the unchanged subtree's address still
receives a delta. -/
theorem C2_counterexample :
    (deepDiffDiff envDefault false false (Value.obj [("a", .bool true)])
        (Value.obj [("a", .bool true)])).2
      = .ok [Delta.mk .DTContext (.stringA "a") (some (.bool true)) "" none []]
    ∧ [Delta.mk .DTContext (.stringA "a") (some (.bool true)) "" none []]
        ≠ ([] : List Delta) :=
  ⟨rfl, by simp⟩

/-! ## C9 — equal scalar roots panic in `calcDeltas` -/

theorem childrenOf_not_compound (ar : Arena) (id : Nat)
    (h : isCompound ar id = false) : childrenOf ar id = [] := by
  simp only [isCompound, Bool.or_eq_false_iff, decide_eq_false_iff_not] at h
  obtain ⟨h1, h2⟩ := h
  unfold childrenOf
  cases ht : typOf ar id <;> simp_all

/-- C9 (amended): with both roots scalar (non-compound) and matched — as
the matcher leaves them on equal scalar inputs — `calcDeltas` panics at
`p[len(p)-1]` on the EMPTY root path while preparing the `compareScalar`
call in its second walk.  Execution therefore never reaches the
`t2.(compound)` type assertion the claim names: the panic the pipeline
raises is the empty-path index, not the compound assertion. -/
theorem C9_scalar_roots_panic (changes : Bool) (ar : Arena) (t1 t2 : Nat)
    (st : Stats)
    (h1 : (matchOf ar t1).isSome = true) (h2 : (matchOf ar t2).isSome = true)
    (hc1 : isCompound ar t1 = false) (hc2 : isCompound ar t2 = false)
    (ha1 : addrOf ar t1 = .rootA) (ha2 : addrOf ar t2 = .rootA)
    (hd2 : changeOf ar t2 ≠ some .DTDelete) :
    calcDeltas changes ar t1 t2 st = .error .emptyRootPath := by
  obtain ⟨m1, hm1⟩ := Option.isSome_iff_exists.mp h1
  obtain ⟨m2, hm2⟩ := Option.isSome_iff_exists.mp h2
  have hch1 := childrenOf_not_compound ar t1 hc1
  have hch2 := childrenOf_not_compound ar t2 hc2
  have hd2' : (changeOf ar t2 = some Operation.DTDelete) = False :=
    eq_false hd2
  have hs1 : stage1 (ar.length + 1) ar t2 t1 [] = .ok ar := by
    simp only [stage1, ha1, Addr.eqA, hm1, Option.isNone_some,
               Bool.false_eq_true, if_false, sortKidsByAddr, hch1]
    rfl
  have hs2 : stage2 (ar.length + 1) ar t2 [] = .error .emptyRootPath := by
    simp only [stage2, ha2, Addr.eqA, hd2', if_false, hm2, hc2,
               Bool.false_eq_true, List.getLast?]
    rfl
  have hok : ∀ {α β : Type} (x : α) (k : α → Except PanicKind β),
      (Except.ok x >>= k) = k x := fun x k => rfl
  have herr : ∀ {α β : Type} (k : α → Except PanicKind β),
      ((Except.error .emptyRootPath : Except PanicKind α) >>= k)
        = .error .emptyRootPath := fun _ => rfl
  simp only [calcDeltas, hs1, hok, hs2, herr]

/-- Closed instantiation of `C9_scalar_roots_panic` on the matched arena
of Diff("x", "x"). -/
theorem C9_scalar_roots_panic_witness :
    calcDeltas false arScalar 0 1 {} = .error .emptyRootPath :=
  C9_scalar_roots_panic false arScalar 0 1 {} rfl rfl rfl rfl rfl rfl
    (by intro h; cases h)

/-- C9 counterexample: on the equal scalar pair ("x", "x") the pipeline
panics with the empty-root-path index error — a different panic site than
the `t2.(compound)` assertion the claim asserts is performed (execution
never reaches it). -/
theorem C9_counterexample :
    (deepDiffDiff envDefault false false (Value.str "x") (Value.str "x")).2
      = .error .emptyRootPath
    ∧ PanicKind.emptyRootPath ≠ PanicKind.rootNotCompound :=
  ⟨rfl, by decide⟩

/-! ## C1 — the round-trip law Patch(Diff(a, b), a) = b -/

/-- C1, evaluation at the failing input: on the in-algebra pair
a = b = "x" (equal scalar roots), Diff panics inside `calcDeltas` instead
of returning the (empty) delta script, so Patch(Diff(a, b), a_copy) = b
fails — there is no script to apply.  (The repo's own test harness
enforces the round trip for its compound-root cases, and doc.go promises
scalar support, so the claim reflects the intent and the panic is the
code's slip.) -/
theorem C1_roundtrip_failing_input :
    (deepDiffDiff envDefault false false (Value.str "x") (Value.str "x")).2
      = .error .emptyRootPath := rfl

/-! ## C10 — the debug-file preamble -/

/-- C10: every invocation of the diff pipeline — Diff, Stat and StatDiff
all run the same `diff` method — first appends the JSON serializations of
both inputs to the $HOME/diff-debug.txt file and prints the notice to
standard output, and it panics (rather than returning an error) whenever
the file cannot be opened or either input cannot be JSON-marshaled; the
phases after the preamble produce no further externally visible events. -/
theorem C10_debug_preamble (env : DebugEnv) (ctx changes : Bool) (a b : Value) :
    (env.openOk = false →
        diffRun env ctx changes a b = ([], .error .debugOpenFailed))
    ∧ (env.openOk = true → env.marshalJSON a = none →
        diffRun env ctx changes a b = ([.openDebugFile], .error .debugMarshalFailed))
    ∧ (∀ da, env.openOk = true → env.marshalJSON a = some da →
        env.marshalJSON b = none →
        diffRun env ctx changes a b =
          ([.openDebugFile, .fileWrite "==================\n", .fileWrite da],
           .error .debugMarshalFailed))
    ∧ (∀ da db, env.openOk = true → env.marshalJSON a = some da →
        env.marshalJSON b = some db →
        (diffRun env ctx changes a b).1 = debugTraceFull da db)
    ∧ ((deepDiffDiff env ctx changes a b).1 = (diffRun env ctx changes a b).1
       ∧ (deepDiffStat env ctx changes a b).1 = (diffRun env ctx changes a b).1
       ∧ (deepDiffStatDiff env ctx changes a b).1 = (diffRun env ctx changes a b).1) := by
  refine ⟨?_, ?_, ?_, ?_, ?_⟩
  · intro hopen
    simp [diffRun, debugPreamble, hopen]
  · intro hopen hma
    simp [diffRun, debugPreamble, hopen, hma]
  · intro da hopen hma hmb
    simp [diffRun, debugPreamble, hopen, hma, hmb]
  · intro da db hopen hma hmb
    simp [diffRun, debugPreamble, debugTraceFull, hopen, hma, hmb]
  · refine ⟨?_, ?_, ?_⟩
    · rcases hr : diffRun env ctx changes a b with ⟨tr, res⟩
      simp [deepDiffDiff, hr]
    · rcases hr : diffRun env ctx changes a b with ⟨tr, res⟩
      simp [deepDiffStat, hr]
    · rfl

/-- Closed instantiation of `C10_debug_preamble`: the failing-open
environment panics before any write, and in a healthy environment the
trace of Diff is exactly the preamble's. -/
theorem C10_debug_preamble_witness :
    diffRun ⟨false, fun _ => some "J"⟩ false false .null .null
      = ([], .error .debugOpenFailed)
    ∧ (diffRun envDefault false false .null .null).1 = debugTraceFull "J" "J" := by
  refine ⟨(C10_debug_preamble ⟨false, fun _ => some "J"⟩ false false .null .null).1 rfl, ?_⟩
  exact (C10_debug_preamble envDefault false false .null .null).2.2.2.1 "J" "J" rfl rfl rfl
